import Mathlib

/-!
Verification of the hermes-client library (swiss-seismological-service/hermes-client).

This file gives a shallow embedding, in Lean 4, of the entity-resolution,
deduplication, lazy-caching and result-materialization layer of the client
(src/hermes_client/utils.py, schemas.py, forecast.py, forecastseries.py,
modelrun.py), and proves or refutes the specified properties of that layer.

Modelling conventions:
- Python dicts are association lists in insertion order (`Dict`).
- Python exceptions are the error side of `Except PyErr`.
- Python reference semantics (aliasing of mutable objects handed out by the
  lazily-caching accessors) are modelled with a small explicit heap: an
  accessor returns an address, and mutation of the object behind an address
  is an explicit heap update.
- The HTTP transport is out of scope (an external collaborator per the spec):
  every network fetch is a parameter of type `Except PyErr v`, and the
  theorems count how many fetches an accessor issues.
-/

namespace HermesClient

/-- Decidable equality for `Except`, used to evaluate the embedded fallible
functions on concrete inputs. -/
instance {ε α : Type} [DecidableEq ε] [DecidableEq α] : DecidableEq (Except ε α)
  | .ok a, .ok b =>
    if h : a = b then .isTrue (by rw [h]) else .isFalse (by intro he; cases he; exact h rfl)
  | .ok _, .error _ => .isFalse (by intro he; cases he)
  | .error _, .ok _ => .isFalse (by intro he; cases he)
  | .error a, .error b =>
    if h : a = b then .isTrue (by rw [h]) else .isFalse (by intro he; cases he; exact h rfl)

/-- Python exception kinds raised by the embedded code paths. -/
inductive PyErr where
  | typeError
  | valueError (msg : String)
  | notImplementedError (msg : String)
  | notFound (msg : String)
  | keyError (k : String)
deriving DecidableEq, Repr

/-- Python values occurring in the metadata records handled by
`deduplicate_dict` (src/hermes_client/utils.py): strings, integers, and
lists, the latter being unhashable. -/
inductive PyVal where
  | str (s : String)
  | int (n : Int)
  | list (xs : List Int)
deriving DecidableEq, Repr

/-- Python `hash` succeeds on strings and integers and raises TypeError on
lists. -/
def PyVal.hashable : PyVal → Bool
  | .str _ => true
  | .int _ => true
  | .list _ => false

/-- A Python dict with string keys, as an association list in insertion
order. -/
abbrev Dict := List (String × PyVal)

/-- Code-point lexicographic comparison of character lists, the order Python
uses to compare strings. -/
def lexLe : List Char → List Char → Bool
  | [], _ => true
  | _ :: _, [] => false
  | a :: as, b :: bs =>
    if a.val < b.val then true
    else if b.val < a.val then false
    else lexLe as bs

/-- Python string comparison (code-point lexicographic). -/
def strLeB (a b : String) : Bool := lexLe a.data b.data

/-- Embedding of the canonical form `tuple(sorted(d.items()))` built by
`deduplicate_dict` (src/hermes_client/utils.py line 55): the items of the
dict sorted by key. Keys of a dict are unique, so Python never compares the
values while sorting. -/
def sortedItems (d : Dict) : Dict :=
  List.insertionSort (fun a b => strLeB a.1 b.1) d

/-- Loop of `deduplicate_dict` (src/hermes_client/utils.py lines 51-59):
for each record `d` in order, the canonical tuple `t` of `d` is hashed for
the membership test `t not in seen` — a TypeError if any value of `d` is
unhashable — and `d` is appended to the result exactly when `t` was not
seen before. -/
def deduplicate_dict.go (seen acc : List Dict) : List Dict → Except PyErr (List Dict)
  | [] => .ok acc.reverse
  | d :: rest =>
    let t := sortedItems d
    if t.all (fun kv => kv.2.hashable) then
      if t ∈ seen then deduplicate_dict.go seen acc rest
      else deduplicate_dict.go (t :: seen) (d :: acc) rest
    else .error .typeError

/-- Embedding of `deduplicate_dict` (src/hermes_client/utils.py lines
51-59). -/
def deduplicate_dict (dict_list : List Dict) : Except PyErr (List Dict) :=
  deduplicate_dict.go [] [] dict_list

/-- Specification-side characterization of deduplication: keep the first
occurrence of each record and drop later duplicates, two records being
duplicates exactly when their sorted key/value item tuples are equal. -/
def firstOccurrences : List Dict → List Dict
  | [] => []
  | d :: rest =>
    d :: firstOccurrences (rest.filter (fun e => decide (sortedItems e ≠ sortedItems d)))
termination_by l => l.length
decreasing_by
  simp only [List.length_cons]
  exact Nat.lt_succ_of_le (rest.length_filter_le _)

/-- Variant of `firstOccurrences` threading the already-seen canonical
forms, mirroring the `seen` accumulator of `deduplicate_dict.go`. -/
def firstOccFrom (seen : List Dict) : List Dict → List Dict
  | [] => []
  | d :: rest =>
    if sortedItems d ∈ seen then firstOccFrom seen rest
    else d :: firstOccFrom (sortedItems d :: seen) rest

theorem deduplicate_dict_go_ok (l : List Dict) : ∀ (seen acc r : List Dict),
    deduplicate_dict.go seen acc l = .ok r → r = acc.reverse ++ firstOccFrom seen l := by
  induction l with
  | nil =>
    intro seen acc r h
    simp only [deduplicate_dict.go] at h
    cases h
    simp [firstOccFrom]
  | cons d rest ih =>
    intro seen acc r h
    simp only [deduplicate_dict.go] at h
    by_cases hh : (sortedItems d).all (fun kv => kv.2.hashable) = true
    · rw [if_pos hh] at h
      by_cases hs : sortedItems d ∈ seen
      · rw [if_pos hs] at h
        rw [ih seen acc r h]
        simp [firstOccFrom, hs]
      · rw [if_neg hs] at h
        rw [ih _ _ r h]
        simp [firstOccFrom, hs]
    · rw [if_neg hh] at h
      cases h

theorem sortedItems_perm (d : Dict) : (sortedItems d).Perm d :=
  List.perm_insertionSort _ d

theorem firstOccFrom_eq_firstOccurrences (l : List Dict) : ∀ seen : List Dict,
    firstOccFrom seen l =
      firstOccurrences (l.filter (fun d => decide (sortedItems d ∉ seen))) := by
  induction l with
  | nil => intro seen; simp [firstOccFrom, firstOccurrences]
  | cons d rest ih =>
    intro seen
    by_cases hs : sortedItems d ∈ seen
    · simp only [firstOccFrom, if_pos hs, List.filter_cons]
      have hdec : decide (sortedItems d ∉ seen) = false := by simp [hs]
      rw [hdec]
      simp only [Bool.false_eq_true, if_false]
      exact ih seen
    · simp only [firstOccFrom, if_neg hs, List.filter_cons]
      have hdec : decide (sortedItems d ∉ seen) = true := by simp [hs]
      rw [hdec]
      simp only [if_true]
      rw [firstOccurrences, List.filter_filter]
      congr 1
      rw [ih (sortedItems d :: seen)]
      congr 1
      refine List.filter_congr (fun e _ => ?_)
      by_cases he : sortedItems e = sortedItems d <;>
        by_cases hm : sortedItems e ∈ seen <;> simp [he, hm, List.mem_cons]

theorem deduplicate_dict_ok (l r : List Dict) (h : deduplicate_dict l = .ok r) :
    r = firstOccurrences l := by
  have h1 := deduplicate_dict_go_ok l [] [] r h
  rw [firstOccFrom_eq_firstOccurrences] at h1
  simpa using h1

theorem deduplicate_dict_total (l : List Dict)
    (h : ∀ d ∈ l, ∀ kv ∈ d, kv.2.hashable = true) :
    ∃ r, deduplicate_dict l = .ok r := by
  suffices hgo : ∀ seen acc, ∃ r, deduplicate_dict.go seen acc l = .ok r from hgo [] []
  induction l with
  | nil => intro seen acc; exact ⟨acc.reverse, rfl⟩
  | cons d rest ih =>
    intro seen acc
    have hd : (sortedItems d).all (fun kv => kv.2.hashable) = true := by
      rw [List.all_eq_true]
      intro kv hkv
      exact h d (List.mem_cons_self d rest) kv ((sortedItems_perm d).mem_iff.mp hkv)
    have hrest : ∀ d' ∈ rest, ∀ kv ∈ d', kv.2.hashable = true := fun d' hd' =>
      h d' (List.mem_cons_of_mem d hd')
    simp only [deduplicate_dict.go, if_pos hd]
    by_cases hs : sortedItems d ∈ seen
    · rw [if_pos hs]; exact ih hrest seen acc
    · rw [if_neg hs]; exact ih hrest _ _

/-- C10: deduplicate_dict is total over records with hashable values, and
raises TypeError on a record containing an unhashable (list) value, at the
point where the sorted item tuple is hashed for the membership test. -/
theorem claim_C10_dedup_hashability :
    (∀ l : List Dict, (∀ d ∈ l, ∀ kv ∈ d, kv.2.hashable = true) →
      ∃ r, deduplicate_dict l = .ok r) ∧
    deduplicate_dict [[("rates", PyVal.list [1, 2])]] = .error .typeError := by
  constructor
  · exact deduplicate_dict_total
  · decide

/-- Witness for C10 at concrete inputs. -/
theorem claim_C10_dedup_hashability_witness :
    (∃ r, deduplicate_dict [[("a", PyVal.int 1)], [("a", PyVal.int 1)]] = .ok r) ∧
    deduplicate_dict [[("rates", PyVal.list [1, 2])]] = .error .typeError :=
  ⟨claim_C10_dedup_hashability.1 _ (by decide), claim_C10_dedup_hashability.2⟩

/-- A ModelRun record as embedded in a Forecast metadata record
(src/hermes_client/forecast.py): its oid and the optionally present
embedded injectionplan and modelconfig dicts. -/
structure ModelRunRec where
  oid : Nat
  injectionplan : Option Dict := none
  modelconfig : Option Dict := none
deriving DecidableEq, Repr

/-- The slice of a Forecast metadata record touched by
`ForecastClient.extract_metadata` and `ForecastClient.get_results`
(src/hermes_client/forecast.py). A missing or falsy modelruns entry is
`none`. -/
structure ForecastMetadata where
  modelruns : Option (List ModelRunRec) := none
  modelconfigs : List Dict := []
  injectionplans : List Dict := []
deriving DecidableEq, Repr

/-- Embedding of `ForecastClient.extract_metadata`
(src/hermes_client/forecast.py lines 55-71): normalize a missing or empty
modelruns entry to the empty list, collect the embedded injectionplan and
modelconfig dicts of the modelruns in order, and store their
deduplications. This is a pure function of the already-fetched metadata:
it issues no network request. -/
def extract_metadata (md : ForecastMetadata) : Except PyErr ForecastMetadata :=
  match deduplicate_dict ((md.modelruns.getD []).filterMap ModelRunRec.modelconfig) with
  | .error e => .error e
  | .ok mcs =>
    match deduplicate_dict ((md.modelruns.getD []).filterMap ModelRunRec.injectionplan) with
    | .error e => .error e
    | .ok ips =>
      .ok { modelruns := some (md.modelruns.getD []),
            modelconfigs := mcs, injectionplans := ips }

/-- C6: after construction, the modelconfigs (resp. injectionplans) entry of
a Forecast metadata record is deduplicate_dict applied, in order, to the
modelconfig (resp. injectionplan) dicts embedded in its modelruns, which
keeps the first occurrence of each record and drops later duplicates, two
records being duplicates exactly when their sorted key/value item tuples
are equal; extract_metadata is a pure function of the metadata, so the
derived lists are built without any network fetch. -/
theorem claim_C6_extract_metadata (md md' : ForecastMetadata)
    (h : extract_metadata md = .ok md') :
    deduplicate_dict ((md.modelruns.getD []).filterMap ModelRunRec.modelconfig) =
      .ok md'.modelconfigs ∧
    deduplicate_dict ((md.modelruns.getD []).filterMap ModelRunRec.injectionplan) =
      .ok md'.injectionplans ∧
    md'.modelconfigs =
      firstOccurrences ((md.modelruns.getD []).filterMap ModelRunRec.modelconfig) ∧
    md'.injectionplans =
      firstOccurrences ((md.modelruns.getD []).filterMap ModelRunRec.injectionplan) ∧
    md'.modelruns = some (md.modelruns.getD []) := by
  unfold extract_metadata at h
  cases hmc : deduplicate_dict ((md.modelruns.getD []).filterMap ModelRunRec.modelconfig) with
  | error e => rw [hmc] at h; cases h
  | ok mcs =>
    rw [hmc] at h
    cases hip : deduplicate_dict ((md.modelruns.getD []).filterMap ModelRunRec.injectionplan) with
    | error e => rw [hip] at h; cases h
    | ok ips =>
      rw [hip] at h
      cases h
      exact ⟨rfl, rfl, deduplicate_dict_ok _ _ hmc, deduplicate_dict_ok _ _ hip, rfl⟩

/-- Forecast metadata with two modelruns sharing one injectionplan and
carrying two distinct modelconfigs. -/
def mdExample : ForecastMetadata :=
  { modelruns := some [
      { oid := 1, injectionplan := some [("name", PyVal.str "ip1")],
        modelconfig := some [("name", PyVal.str "mc1")] },
      { oid := 2, injectionplan := some [("name", PyVal.str "ip1")],
        modelconfig := some [("name", PyVal.str "mc2")] }] }

/-- The metadata produced by extract_metadata on `mdExample`. -/
def mdExampleResult : ForecastMetadata :=
  { modelruns := mdExample.modelruns,
    modelconfigs := [[("name", PyVal.str "mc1")], [("name", PyVal.str "mc2")]],
    injectionplans := [[("name", PyVal.str "ip1")]] }

/-- Witness for C6 at the concrete metadata record `mdExample`. -/
theorem claim_C6_extract_metadata_witness :
    extract_metadata mdExample = .ok mdExampleResult ∧
    mdExampleResult.modelconfigs =
      firstOccurrences ((mdExample.modelruns.getD []).filterMap ModelRunRec.modelconfig) ∧
    mdExampleResult.injectionplans =
      firstOccurrences ((mdExample.modelruns.getD []).filterMap ModelRunRec.injectionplan) :=
  ⟨by decide,
    (claim_C6_extract_metadata mdExample mdExampleResult (by decide)).2.2.1,
    (claim_C6_extract_metadata mdExample mdExampleResult (by decide)).2.2.2.1⟩

/-- The slice of an embedded modelconfig dict read by the
`ModelRunInfo.get_result_type` validator (src/hermes_client/schemas.py):
its result_type entry, when present. -/
structure MCData where
  result_type : Option String := none
deriving DecidableEq, Repr

/-- The slice of a raw ModelRun record read by the
`ModelRunInfo.get_result_type` validator (src/hermes_client/schemas.py):
the ModelRun-level result_type entry and the embedded modelconfig dict,
each when present. -/
structure ModelRunData where
  result_type : Option String := none
  modelconfig : Option MCData := none
deriving DecidableEq, Repr

/-- Embedding of the before-mode model validator
`ModelRunInfo.get_result_type` (src/hermes_client/schemas.py lines
146-152): when the record carries an embedded modelconfig whose dict has a
result_type entry, that value is written over the ModelRun-level
result_type entry; otherwise the record is returned unchanged. -/
def get_result_type (data : ModelRunData) : ModelRunData :=
  match data.modelconfig with
  | some mc =>
    match mc.result_type with
    | some rt => { data with result_type := some rt }
    | none => data
  | none => data

/-- The result_type field of the validated ModelRunInfo: the value left in
the record after the `get_result_type` before-validator ran. -/
def modelRunInfoResultType (data : ModelRunData) : Option String :=
  (get_result_type data).result_type

/-- C3, counterexample: a ModelRun record carrying its own result_type GRID
and an embedded modelconfig with result_type CATALOG validates to CATALOG,
not to the ModelRun-level value GRID — the modelconfig value takes
precedence, refuting the claim that the ModelRun-level value wins and the
modelconfig value is only a fallback. -/
theorem claim_C3_result_type_counterexample :
    modelRunInfoResultType
        { result_type := some "GRID", modelconfig := some { result_type := some "CATALOG" } } =
      some "CATALOG" ∧
    modelRunInfoResultType
        { result_type := some "GRID", modelconfig := some { result_type := some "CATALOG" } } ≠
      some "GRID" := by
  constructor
  · rfl
  · decide

/-- C3, amended: the validated ModelRunInfo.result_type equals the embedded
modelconfig value whenever the record carries a modelconfig with a
result_type entry, and the ModelRun-level value is used only when no such
modelconfig value is present. -/
theorem claim_C3_result_type_precedence (data : ModelRunData) :
    modelRunInfoResultType data =
      match data.modelconfig with
      | some mc =>
        match mc.result_type with
        | some rt => some rt
        | none => data.result_type
      | none => data.result_type := by
  unfold modelRunInfoResultType get_result_type
  cases hmc : data.modelconfig with
  | none => rfl
  | some mc => cases hrt : mc.result_type <;> simp [hrt]

/-- Name lookup on an embedded dict, as done by
`m['injectionplan']['name']` and `m['modelconfig']['name']` in
`ForecastClient.get_results` (src/hermes_client/forecast.py). -/
def dictName (d : Dict) : Option PyVal := d.lookup "name"

/-- The injectionplan filter predicate of `ForecastClient.get_results`
(src/hermes_client/forecast.py lines 216-217): the guard
checking that injectionplan is a key of m short-circuits, so a modelrun
without one is a non-match, but an embedded injectionplan dict without a
name entry raises KeyError inside the comprehension. -/
def ipMatches (ip : String) (m : ModelRunRec) : Except PyErr Bool :=
  match m.injectionplan with
  | none => .ok false
  | some d =>
    match dictName d with
    | none => .error (.keyError "name")
    | some v => .ok (v == PyVal.str ip)

/-- The modelconfig search predicate of `ForecastClient.get_results`
(src/hermes_client/forecast.py line 219): the subscript of m by
modelconfig is unguarded, so a modelrun without an embedded modelconfig
raises KeyError, as does an embedded dict without a name entry. -/
def mcMatches (modelconfig : String) (m : ModelRunRec) : Except PyErr Bool :=
  match m.modelconfig with
  | none => .error (.keyError "modelconfig")
  | some d =>
    match dictName d with
    | none => .error (.keyError "name")
    | some v => .ok (v == PyVal.str modelconfig)

/-- A Python list comprehension filtering by a predicate that may raise:
predicates are evaluated left to right and the first raise aborts the
comprehension. -/
def filterE {α : Type} (p : α → Except PyErr Bool) : List α → Except PyErr (List α)
  | [] => .ok []
  | x :: xs =>
    match p x with
    | .error e => .error e
    | .ok b =>
      match filterE p xs with
      | .error e => .error e
      | .ok rest => .ok (if b then x :: rest else rest)

/-- A Python generator consumed by next with default None: elements are
tested left to right, stopping at the first match, and a raising
predicate aborts the search. -/
def findE {α : Type} (p : α → Except PyErr Bool) : List α → Except PyErr (Option α)
  | [] => .ok none
  | x :: xs =>
    match p x with
    | .error e => .error e
    | .ok true => .ok (some x)
    | .ok false => findE p xs

/-- The not-found message of `ForecastClient.get_results`
(src/hermes_client/forecast.py lines 223-224); a None injectionplan renders
as the string None, as in the Python f-string. -/
def notFoundMsg (modelconfig : String) (injectionplan : Option String) : String :=
  "ModelRun with ModelConfig \"" ++ modelconfig ++ "\" and InjectionPlan \"" ++
    (match injectionplan with | some ip => ip | none => "None") ++ "\" not found."

/-- Embedding of `ForecastClient.get_results`
(src/hermes_client/forecast.py lines 187-226) up to the handoff of the
selected ModelRun oid to the per-run result fetch: returns `ok none` for
the early return on an empty modelruns list (no network request is
issued), `ok (some oid)` for the oid whose results are then fetched, and
the raised ValueError otherwise. -/
def fc_get_results (modelruns : List ModelRunRec) (modelconfig : String)
    (injectionplan : Option String) : Except PyErr (Option Nat) :=
  if modelruns = [] then .ok none
  else
    match
      (match injectionplan with
       | none => Except.ok modelruns
       | some ip =>
         if ¬ modelruns.any (fun m => m.injectionplan.isSome) then
           Except.error (PyErr.valueError "ModelRuns do not have injection plans.")
         else filterE (ipMatches ip) modelruns) with
    | .error e => .error e
    | .ok run =>
      match findE (mcMatches modelconfig) run with
      | .error e => .error e
      | .ok none => .error (.valueError (notFoundMsg modelconfig injectionplan))
      | .ok (some m) => .ok (some m.oid)

/-- C9: with an empty modelruns list, get_results returns the None sentinel
for every argument combination without raising and without handing any oid
to the result fetch, and any raised error implies the modelruns list was
non-empty. -/
theorem claim_C9_get_results_empty :
    (∀ (modelconfig : String) (injectionplan : Option String),
      fc_get_results [] modelconfig injectionplan = .ok none) ∧
    (∀ (modelruns : List ModelRunRec) (modelconfig : String)
      (injectionplan : Option String) (e : PyErr),
      fc_get_results modelruns modelconfig injectionplan = .error e →
      modelruns ≠ []) := by
  constructor
  · intro modelconfig injectionplan
    rfl
  · intro modelruns modelconfig injectionplan e h hempty
    subst hempty
    exact absurd h (by simp [fc_get_results])

/-- Witness for C9 at concrete inputs: the second component applied to a
one-element modelruns list on which the not-found error is raised. -/
theorem claim_C9_get_results_empty_witness :
    fc_get_results [] "mc1" (some "ip1") = .ok none ∧
    ([({ oid := 3, modelconfig := some [("name", PyVal.str "mcX")] } : ModelRunRec)] :
      List ModelRunRec) ≠ [] :=
  ⟨claim_C9_get_results_empty.1 "mc1" (some "ip1"),
    claim_C9_get_results_empty.2
      [{ oid := 3, modelconfig := some [("name", PyVal.str "mcX")] }] "mc1" none
      (.valueError (notFoundMsg "mc1" none)) (by decide)⟩

theorem find?_first {α : Type} (p : α → Bool) :
    ∀ (l : List α) (i : Nat) (hi : i < l.length),
    p (l.get ⟨i, hi⟩) = true →
    (∀ j (hj : j < i), p (l.get ⟨j, Nat.lt_trans hj hi⟩) = false) →
    l.find? p = some (l.get ⟨i, hi⟩)
  | [], i, hi => by simp at hi
  | x :: xs, 0, _ => fun hp _ => by
    have hp' : p x = true := hp
    simp [List.find?_cons, hp']
  | x :: xs, i + 1, hi => fun hp hb => by
    have h0 : p x = false := hb 0 (Nat.succ_pos i)
    simp only [List.find?_cons, h0, Bool.false_eq_true, if_false]
    exact find?_first p xs i (Nat.lt_of_succ_lt_succ hi) hp
      (fun j hj => hb (j + 1) (Nat.succ_lt_succ hj))

/-- An identifier value passed to ForecastSeriesClient: `uuid u` when
`UUID(value)` succeeds (a UUID instance or a UUID-valid string), `nm s`
when `UUID(value)` raises ValueError (a human-readable name). -/
inductive Ident where
  | uuid (u : String)
  | nm (s : String)
deriving DecidableEq, Repr

/-- A ForecastSeries record of a project listing, restricted to the fields
the resolution code reads: the record is returned whole and only its name
entry is compared. -/
structure FSRec where
  name : String
  oid : String
deriving DecidableEq, Repr

/-- Embedding of `ForecastSeriesClient._get_forecastseries`
(src/hermes_client/forecastseries.py lines 41-86). The transport is
abstracted (an external collaborator per the spec): `getFS u` stands for
the by-oid fetch `hermes.get_forecastseries(u)` and `listFS p` for the
listing search `hermes.list_forecastseries(p)`, `ok none` modelling a
null listing body (the `fs_list is None` guard). The Nat in the result
counts the listing-search calls issued. -/
def _get_forecastseries (getFS : String → Except PyErr FSRec)
    (listFS : Ident → Except PyErr (Option (List FSRec)))
    (forecastseries : Ident) (project : Option Ident) :
    Except PyErr (FSRec × Nat) :=
  match forecastseries with
  | .uuid u =>
    match getFS u with
    | .error e => .error e
    | .ok fs => .ok (fs, 0)
  | .nm s =>
    match project with
    | none =>
      .error (.valueError ("Either ForecastSeries UUID must be provided, or both " ++
        "the ForecastSeries name and the Project UUID or name."))
    | some p =>
      match listFS p with
      | .error e => .error e
      | .ok none => .error (.notFound "No ForecastSeries found for Project.")
      | .ok (some fs_list) =>
        match fs_list.find? (fun fs => fs.name == s) with
        | none => .error (.notFound "ForecastSeries with name for Project not found.")
        | some fs => .ok (fs, 1)

/-- C5: a UUID-valid identifier is resolved with zero listing-search calls
by fetching exactly that value; a name without a project raises the
missing-scope ValueError; a name with a valid project resolves to the
first listing record whose name equals it exactly (earlier records do not
match), and raises NotFound when no record's name matches. -/
theorem claim_C5_identifier_resolution
    (getFS : String → Except PyErr FSRec)
    (listFS : Ident → Except PyErr (Option (List FSRec))) :
    (∀ u proj fs n, _get_forecastseries getFS listFS (.uuid u) proj = .ok (fs, n) →
      getFS u = .ok fs ∧ n = 0) ∧
    (∀ s, _get_forecastseries getFS listFS (.nm s) none =
      .error (.valueError ("Either ForecastSeries UUID must be provided, or both " ++
        "the ForecastSeries name and the Project UUID or name."))) ∧
    (∀ s p L i (hi : i < L.length), listFS p = .ok (some L) →
      (L.get ⟨i, hi⟩).name = s →
      (∀ j (hj : j < i), (L.get ⟨j, Nat.lt_trans hj hi⟩).name ≠ s) →
      _get_forecastseries getFS listFS (.nm s) (some p) = .ok (L.get ⟨i, hi⟩, 1)) ∧
    (∀ s p L, listFS p = .ok (some L) → (∀ fs ∈ L, fs.name ≠ s) →
      _get_forecastseries getFS listFS (.nm s) (some p) =
        .error (.notFound "ForecastSeries with name for Project not found.")) := by
  refine ⟨?_, fun s => rfl, ?_, ?_⟩
  · intro u proj fs n h
    simp only [_get_forecastseries] at h
    cases hg : getFS u with
    | error e => simp [hg] at h
    | ok fs0 =>
      simp only [hg] at h
      obtain ⟨h1, h2⟩ : fs0 = fs ∧ 0 = n := by
        have h' : (Except.ok (fs0, 0) : Except PyErr (FSRec × Nat)) = .ok (fs, n) := h
        injection h' with h''
        exact ⟨congrArg Prod.fst h'', congrArg Prod.snd h''⟩
      exact ⟨congrArg Except.ok h1, h2.symm⟩
  · intro s p L i hi hlist hname hbefore
    have hfind : L.find? (fun fs => fs.name == s) = some (L.get ⟨i, hi⟩) := by
      refine find?_first _ L i hi (by simp only [beq_iff_eq]; exact hname) (fun j hj => ?_)
      simp only [beq_eq_false_iff_ne, ne_eq]
      exact hbefore j hj
    simp only [_get_forecastseries, hlist, hfind]
  · intro s p L hlist hno
    have hfind : L.find? (fun fs => fs.name == s) = none :=
      List.find?_eq_none.mpr (fun fs hfs => by simpa using hno fs hfs)
    simp only [_get_forecastseries, hlist, hfind]

/-- The by-oid fetch of the witness transport: returns a record keyed by
the requested oid. -/
def getFSW : String → Except PyErr FSRec := fun u => .ok { name := "fsname", oid := u }

/-- The listing search of the witness transport: one project listing with a
duplicate name. -/
def listFSW : Ident → Except PyErr (Option (List FSRec)) := fun _ =>
  .ok (some [{ name := "other", oid := "o1" },
             { name := "target", oid := "o2" },
             { name := "target", oid := "o3" }])

/-- Witness for C5 at the concrete transport `getFSW`/`listFSW`: direct UUID
resolution with zero listing calls, the missing-scope error, first-match
name resolution (the record with oid o2, not o3), and the not-found
error. -/
theorem claim_C5_identifier_resolution_witness :
    (getFSW "0-0-0-0-0" = .ok { name := "fsname", oid := "0-0-0-0-0" } ∧ (0 : Nat) = 0) ∧
    _get_forecastseries getFSW listFSW (.nm "target") none =
      .error (.valueError ("Either ForecastSeries UUID must be provided, or both " ++
        "the ForecastSeries name and the Project UUID or name.")) ∧
    _get_forecastseries getFSW listFSW (.nm "target") (some (.uuid "p1")) =
      .ok ({ name := "target", oid := "o2" }, 1) ∧
    _get_forecastseries getFSW listFSW (.nm "missing") (some (.uuid "p1")) =
      .error (.notFound "ForecastSeries with name for Project not found.") := by
  refine ⟨?_, ?_, ?_, ?_⟩
  · exact (claim_C5_identifier_resolution getFSW listFSW).1 "0-0-0-0-0" none
      { name := "fsname", oid := "0-0-0-0-0" } 0 (by decide)
  · exact (claim_C5_identifier_resolution getFSW listFSW).2.1 "target"
  · exact (claim_C5_identifier_resolution getFSW listFSW).2.2.1 "target" (.uuid "p1")
      [{ name := "other", oid := "o1" }, { name := "target", oid := "o2" },
       { name := "target", oid := "o3" }] 1 (by decide) (by decide) (by decide)
      (fun j hj => by
        have hj0 : j = 0 := by omega
        subst hj0
        exact (by decide : ("other" : String) ≠ "target"))
  · exact (claim_C5_identifier_resolution getFSW listFSW).2.2.2 "missing" (.uuid "p1")
      [{ name := "other", oid := "o1" }, { name := "target", oid := "o2" },
       { name := "target", oid := "o3" }] (by decide) (by decide)

/-- Forecast status values (spec section 3). -/
inductive FCStatus where
  | PENDING
  | SCHEDULED
  | PAUSED
  | RUNNING
  | CANCELLED
  | FAILED
  | COMPLETED
deriving DecidableEq, Repr

/-- The slice of a Forecast record read by time-based lookup: its oid,
starttime (as a time coordinate) and status. -/
structure FCRec where
  oid : Nat
  starttime : Int
  status : FCStatus
deriving DecidableEq, Repr

/-- First element of the list minimizing f; the earlier element wins
ties. -/
def minBy {α : Type} (f : α → Int) : List α → Option α
  | [] => none
  | x :: xs =>
    match minBy f xs with
    | none => some x
    | some y => if f x ≤ f y then some x else some y

/-- First element of the list maximizing f; the earlier element wins
ties. -/
def maxBy {α : Type} (f : α → Int) : List α → Option α
  | [] => none
  | x :: xs =>
    match maxBy f xs with
    | none => some x
    | some y => if f y ≤ f x then some x else some y

theorem minBy_mem {α : Type} (f : α → Int) :
    ∀ (l : List α) (y : α), minBy f l = some y → y ∈ l
  | [], y => by simp [minBy]
  | x :: xs, y => by
    intro h
    cases hm : minBy f xs with
    | none => simp only [minBy, hm] at h; cases h; exact List.mem_cons_self _ _
    | some z =>
      simp only [minBy, hm] at h
      by_cases hle : f x ≤ f z
      · rw [if_pos hle] at h; cases h; exact List.mem_cons_self _ _
      · rw [if_neg hle] at h; cases h; exact List.mem_cons_of_mem _ (minBy_mem f xs _ hm)

theorem minBy_ne_none {α : Type} (f : α → Int) (x : α) (xs : List α) :
    minBy f (x :: xs) ≠ none := by
  simp only [minBy]
  cases hm : minBy f xs with
  | none => simp
  | some y => by_cases hle : f x ≤ f y <;> simp [hle]

theorem minBy_le {α : Type} (f : α → Int) :
    ∀ (l : List α) (y : α), minBy f l = some y → ∀ z ∈ l, f y ≤ f z
  | [], y => by simp [minBy]
  | x :: xs, y => by
    intro h z hz
    cases hm : minBy f xs with
    | none =>
      simp only [minBy, hm] at h; cases h
      rcases List.mem_cons.mp hz with rfl | hz'
      · exact le_refl _
      · cases xs with
        | nil => simp at hz'
        | cons a as => exact absurd hm (minBy_ne_none f a as)
    | some w =>
      simp only [minBy, hm] at h
      by_cases hle : f x ≤ f w
      · rw [if_pos hle] at h; cases h
        rcases List.mem_cons.mp hz with rfl | hz'
        · exact le_refl _
        · exact le_trans hle (minBy_le f xs _ hm z hz')
      · rw [if_neg hle] at h; cases h
        rcases List.mem_cons.mp hz with rfl | hz'
        · exact (not_le.mp hle).le
        · exact minBy_le f xs _ hm z hz'

theorem maxBy_mem {α : Type} (f : α → Int) :
    ∀ (l : List α) (y : α), maxBy f l = some y → y ∈ l
  | [], y => by simp [maxBy]
  | x :: xs, y => by
    intro h
    cases hm : maxBy f xs with
    | none => simp only [maxBy, hm] at h; cases h; exact List.mem_cons_self _ _
    | some z =>
      simp only [maxBy, hm] at h
      by_cases hle : f z ≤ f x
      · rw [if_pos hle] at h; cases h; exact List.mem_cons_self _ _
      · rw [if_neg hle] at h; cases h; exact List.mem_cons_of_mem _ (maxBy_mem f xs _ hm)

theorem maxBy_ne_none {α : Type} (f : α → Int) (x : α) (xs : List α) :
    maxBy f (x :: xs) ≠ none := by
  simp only [maxBy]
  cases hm : maxBy f xs with
  | none => simp
  | some y => by_cases hle : f y ≤ f x <;> simp [hle]

theorem maxBy_ge {α : Type} (f : α → Int) :
    ∀ (l : List α) (y : α), maxBy f l = some y → ∀ z ∈ l, f z ≤ f y
  | [], y => by simp [maxBy]
  | x :: xs, y => by
    intro h z hz
    cases hm : maxBy f xs with
    | none =>
      simp only [maxBy, hm] at h; cases h
      rcases List.mem_cons.mp hz with rfl | hz'
      · exact le_refl _
      · cases xs with
        | nil => simp at hz'
        | cons a as => exact absurd hm (maxBy_ne_none f a as)
    | some w =>
      simp only [maxBy, hm] at h
      by_cases hle : f w ≤ f x
      · rw [if_pos hle] at h; cases h
        rcases List.mem_cons.mp hz with rfl | hz'
        · exact le_refl _
        · exact le_trans (maxBy_ge f xs _ hm z hz') hle
      · rw [if_neg hle] at h; cases h
        rcases List.mem_cons.mp hz with rfl | hz'
        · exact (not_le.mp hle).le
        · exact maxBy_ge f xs _ hm z hz'

/-- The Forecasts of the Series whose status is in the allow-list. -/
def eligibleForecasts (forecasts : List FCRec) (statuses : List FCStatus) : List FCRec :=
  forecasts.filter (fun f => statuses.contains f.status)

/-- Modelled from the spec: `ForecastSeriesClient.get_forecast_by_time` is
exercised by the repository's tests (tests/test_forecastseries.py) but its
definition is not under src/. Per spec section 4.5: filter the Series'
Forecasts to a status allow-list (default only COMPLETED); nearest
minimizes the absolute distance of starttime to t; previous maximizes
starttime subject to starttime at most t (None if that subset is empty);
next minimizes starttime subject to starttime at least t (None if that
subset is empty); any other method string raises an invalid-argument
error; zero eligible Forecasts give None for every valid method. -/
def get_forecast_by_time (forecasts : List FCRec) (t : Int) (method : String)
    (statuses : List FCStatus := [.COMPLETED]) : Except PyErr (Option FCRec) :=
  if method = "nearest" then
    .ok (minBy (fun f => |f.starttime - t|) (eligibleForecasts forecasts statuses))
  else if method = "previous" then
    .ok (maxBy (fun f => f.starttime)
      ((eligibleForecasts forecasts statuses).filter (fun f => f.starttime ≤ t)))
  else if method = "next" then
    .ok (minBy (fun f => f.starttime)
      ((eligibleForecasts forecasts statuses).filter (fun f => t ≤ f.starttime)))
  else .error (.valueError ("Method \"" ++ method ++ "\" is not a valid method."))

/-- C4: an invalid method string raises the invalid-argument error; zero
eligible Forecasts give ok-None for every valid method without raising;
nearest returns an eligible Forecast minimizing the absolute starttime
distance to t, and returns some Forecast whenever one is eligible;
previous returns an eligible Forecast with maximal starttime among those
with starttime at most t, and returns some Forecast whenever an eligible
one with starttime at most t exists; next returns an eligible Forecast
with minimal starttime among those with starttime at least t, and returns
some Forecast whenever an eligible one with starttime at least t
exists. -/
theorem claim_C4_get_forecast_by_time (forecasts : List FCRec) (t : Int)
    (statuses : List FCStatus) :
    (∀ method, method ≠ "nearest" → method ≠ "previous" → method ≠ "next" →
      get_forecast_by_time forecasts t method statuses =
        .error (.valueError ("Method \"" ++ method ++ "\" is not a valid method."))) ∧
    (eligibleForecasts forecasts statuses = [] →
      get_forecast_by_time forecasts t "nearest" statuses = .ok none ∧
      get_forecast_by_time forecasts t "previous" statuses = .ok none ∧
      get_forecast_by_time forecasts t "next" statuses = .ok none) ∧
    (∀ f, get_forecast_by_time forecasts t "nearest" statuses = .ok (some f) →
      f ∈ eligibleForecasts forecasts statuses ∧
      ∀ g ∈ eligibleForecasts forecasts statuses,
        |f.starttime - t| ≤ |g.starttime - t|) ∧
    (eligibleForecasts forecasts statuses ≠ [] →
      ∃ f, get_forecast_by_time forecasts t "nearest" statuses = .ok (some f)) ∧
    (∀ f, get_forecast_by_time forecasts t "previous" statuses = .ok (some f) →
      f ∈ eligibleForecasts forecasts statuses ∧ f.starttime ≤ t ∧
      ∀ g ∈ eligibleForecasts forecasts statuses, g.starttime ≤ t →
        g.starttime ≤ f.starttime) ∧
    (∀ f, get_forecast_by_time forecasts t "next" statuses = .ok (some f) →
      f ∈ eligibleForecasts forecasts statuses ∧ t ≤ f.starttime ∧
      ∀ g ∈ eligibleForecasts forecasts statuses, t ≤ g.starttime →
        f.starttime ≤ g.starttime) ∧
    ((∃ g ∈ eligibleForecasts forecasts statuses, g.starttime ≤ t) →
      ∃ f, get_forecast_by_time forecasts t "previous" statuses = .ok (some f)) ∧
    ((∃ g ∈ eligibleForecasts forecasts statuses, t ≤ g.starttime) →
      ∃ f, get_forecast_by_time forecasts t "next" statuses = .ok (some f)) := by
  refine ⟨?_, ?_, ?_, ?_, ?_, ?_, ?_, ?_⟩
  · intro method h1 h2 h3
    unfold get_forecast_by_time
    rw [if_neg h1, if_neg h2, if_neg h3]
  · intro hempty
    unfold get_forecast_by_time
    simp [hempty, minBy, maxBy]
  · intro f h
    have hmin : minBy (fun f => |f.starttime - t|)
        (eligibleForecasts forecasts statuses) = some f := by
      have h' : (Except.ok (minBy (fun f => |f.starttime - t|)
          (eligibleForecasts forecasts statuses)) : Except PyErr (Option FCRec)) =
            .ok (some f) := h
      injection h'
    exact ⟨minBy_mem _ _ _ hmin, fun g hg => minBy_le _ _ _ hmin g hg⟩
  · intro hne
    cases helig : eligibleForecasts forecasts statuses with
    | nil => exact absurd helig hne
    | cons a as =>
      cases hm : minBy (fun f => |f.starttime - t|) (a :: as) with
      | none => exact absurd hm (minBy_ne_none _ a as)
      | some f =>
        refine ⟨f, ?_⟩
        show (Except.ok (minBy (fun f => |f.starttime - t|)
          (eligibleForecasts forecasts statuses)) : Except PyErr (Option FCRec)) =
            .ok (some f)
        rw [helig, hm]
  · intro f h
    have hmax : maxBy (fun f => f.starttime)
        ((eligibleForecasts forecasts statuses).filter (fun f => f.starttime ≤ t)) =
          some f := by
      have h' : (Except.ok (maxBy (fun f => f.starttime)
          ((eligibleForecasts forecasts statuses).filter (fun f => f.starttime ≤ t))) :
            Except PyErr (Option FCRec)) = .ok (some f) := h
      injection h'
    have hf := maxBy_mem _ _ _ hmax
    refine ⟨List.mem_of_mem_filter hf, ?_, ?_⟩
    · have := (List.mem_filter.mp hf).2
      exact of_decide_eq_true this
    · intro g hg hgt
      exact maxBy_ge _ _ _ hmax g (List.mem_filter.mpr ⟨hg, decide_eq_true hgt⟩)
  · intro f h
    have hmin : minBy (fun f => f.starttime)
        ((eligibleForecasts forecasts statuses).filter (fun f => t ≤ f.starttime)) =
          some f := by
      have h' : (Except.ok (minBy (fun f => f.starttime)
          ((eligibleForecasts forecasts statuses).filter (fun f => t ≤ f.starttime))) :
            Except PyErr (Option FCRec)) = .ok (some f) := h
      injection h'
    have hf := minBy_mem _ _ _ hmin
    refine ⟨List.mem_of_mem_filter hf, ?_, ?_⟩
    · have := (List.mem_filter.mp hf).2
      exact of_decide_eq_true this
    · intro g hg hgt
      exact minBy_le _ _ _ hmin g (List.mem_filter.mpr ⟨hg, decide_eq_true hgt⟩)
  · rintro ⟨g, hg, hgt⟩
    have hmem : g ∈ (eligibleForecasts forecasts statuses).filter
        (fun f => f.starttime ≤ t) := List.mem_filter.mpr ⟨hg, decide_eq_true hgt⟩
    cases hflt : (eligibleForecasts forecasts statuses).filter
        (fun f => f.starttime ≤ t) with
    | nil => rw [hflt] at hmem; cases hmem
    | cons a as =>
      cases hm : maxBy (fun f => f.starttime) (a :: as) with
      | none => exact absurd hm (maxBy_ne_none _ a as)
      | some f =>
        refine ⟨f, ?_⟩
        show (Except.ok (maxBy (fun f => f.starttime)
          ((eligibleForecasts forecasts statuses).filter (fun f => f.starttime ≤ t))) :
            Except PyErr (Option FCRec)) = .ok (some f)
        rw [hflt, hm]
  · rintro ⟨g, hg, hgt⟩
    have hmem : g ∈ (eligibleForecasts forecasts statuses).filter
        (fun f => t ≤ f.starttime) := List.mem_filter.mpr ⟨hg, decide_eq_true hgt⟩
    cases hflt : (eligibleForecasts forecasts statuses).filter
        (fun f => t ≤ f.starttime) with
    | nil => rw [hflt] at hmem; cases hmem
    | cons a as =>
      cases hm : minBy (fun f => f.starttime) (a :: as) with
      | none => exact absurd hm (minBy_ne_none _ a as)
      | some f =>
        refine ⟨f, ?_⟩
        show (Except.ok (minBy (fun f => f.starttime)
          ((eligibleForecasts forecasts statuses).filter (fun f => t ≤ f.starttime))) :
            Except PyErr (Option FCRec)) = .ok (some f)
        rw [hflt, hm]

/-- Three Forecasts at starttimes 0, 10 and 20, the last not COMPLETED,
used by the C4 witness. -/
def fcListExample : List FCRec :=
  [{ oid := 1, starttime := 0, status := .COMPLETED },
   { oid := 2, starttime := 10, status := .COMPLETED },
   { oid := 3, starttime := 20, status := .PENDING }]

/-- Witness for C4 at `fcListExample` and t = 4 with the default
allow-list: the invalid-method error, empty-series None, nearest
optimality, previous and next optimality at their concrete return values,
and previous and next returning some Forecast since candidates exist. -/
theorem claim_C4_get_forecast_by_time_witness :
    get_forecast_by_time fcListExample 4 "bogus" [.COMPLETED] =
      .error (.valueError ("Method \"" ++ "bogus" ++ "\" is not a valid method.")) ∧
    get_forecast_by_time [] 4 "nearest" [.COMPLETED] = .ok none ∧
    (({ oid := 1, starttime := 0, status := .COMPLETED } : FCRec) ∈
        eligibleForecasts fcListExample [.COMPLETED] ∧
      ∀ g ∈ eligibleForecasts fcListExample [.COMPLETED],
        |(0 : Int) - 4| ≤ |g.starttime - 4|) ∧
    (({ oid := 1, starttime := 0, status := .COMPLETED } : FCRec) ∈
        eligibleForecasts fcListExample [.COMPLETED] ∧
      (0 : Int) ≤ 4 ∧
      ∀ g ∈ eligibleForecasts fcListExample [.COMPLETED], g.starttime ≤ 4 →
        g.starttime ≤ (0 : Int)) ∧
    (({ oid := 2, starttime := 10, status := .COMPLETED } : FCRec) ∈
        eligibleForecasts fcListExample [.COMPLETED] ∧
      (4 : Int) ≤ 10 ∧
      ∀ g ∈ eligibleForecasts fcListExample [.COMPLETED], 4 ≤ g.starttime →
        (10 : Int) ≤ g.starttime) ∧
    (∃ f, get_forecast_by_time fcListExample 4 "previous" [.COMPLETED] = .ok (some f)) ∧
    (∃ f, get_forecast_by_time fcListExample 4 "next" [.COMPLETED] = .ok (some f)) := by
  refine ⟨?_, ?_, ?_, ?_, ?_, ?_, ?_⟩
  · exact (claim_C4_get_forecast_by_time fcListExample 4 [.COMPLETED]).1 "bogus"
      (by decide) (by decide) (by decide)
  · exact ((claim_C4_get_forecast_by_time [] 4 [.COMPLETED]).2.1 (by decide)).1
  · exact (claim_C4_get_forecast_by_time fcListExample 4 [.COMPLETED]).2.2.1
      { oid := 1, starttime := 0, status := .COMPLETED } (by decide)
  · exact (claim_C4_get_forecast_by_time fcListExample 4 [.COMPLETED]).2.2.2.2.1
      { oid := 1, starttime := 0, status := .COMPLETED } (by decide)
  · exact (claim_C4_get_forecast_by_time fcListExample 4 [.COMPLETED]).2.2.2.2.2.1
      { oid := 2, starttime := 10, status := .COMPLETED } (by decide)
  · exact (claim_C4_get_forecast_by_time fcListExample 4 [.COMPLETED]).2.2.2.2.2.2.1
      ⟨{ oid := 1, starttime := 0, status := .COMPLETED }, by decide, by decide⟩
  · exact (claim_C4_get_forecast_by_time fcListExample 4 [.COMPLETED]).2.2.2.2.2.2.2
      ⟨{ oid := 2, starttime := 10, status := .COMPLETED }, by decide, by decide⟩

/-- A cell of a parsed tabular payload; `none` is pandas' missing marker
(NaN/NA). Cell scalars are abstracted to an ordered value type standing for
the parsed CSV scalars; the pd.to_datetime conversion of the two timestamp
columns is abstracted as an order-preserving identity on these values. -/
abbrev Cell := Option Int

/-- A row of a parsed tabular payload: (column name, cell) pairs in column
order. -/
abbrev Row := List (String × Cell)

/-- A parsed tabular payload (a pandas DataFrame). The pd.read_csv
tokenization of the CSV bytes is abstracted (an external library): the
payload arrives as a header plus cell rows. -/
structure Frame where
  header : List String
  rows : List Row
deriving DecidableEq, Repr

/-- Embedding of `rates.rename(columns=...)`: rename column a to b. -/
def renameCol (a b : String) (f : Frame) : Frame :=
  { header := f.header.map (fun c => if c = a then b else c),
    rows := f.rows.map (fun r => r.map (fun kv => if kv.1 = a then (b, kv.2) else kv)) }

/-- Embedding of the mc/a/b default columns of `deserialize_rates`: when
the column is absent, append it holding the missing marker on every row. -/
def ensureCol (c : String) (f : Frame) : Frame :=
  if c ∈ f.header then f
  else { header := f.header ++ [c], rows := f.rows.map (fun r => r ++ [(c, none)]) }

/-- The (starttime, endtime) group key of a row; `none` when either cell is
missing (pandas groupby drops NaN keys). -/
def rowKey (r : Row) : Option (Int × Int) :=
  match r.lookup "starttime", r.lookup "endtime" with
  | some (some a), some (some b) => some (a, b)
  | _, _ => none

/-- Loop of first-occurrence deduplication, threading the already-seen
elements. -/
def dedupFirst.go {α : Type} [DecidableEq α] (seen : List α) : List α → List α
  | [] => []
  | x :: xs =>
    if x ∈ seen then dedupFirst.go seen xs
    else x :: dedupFirst.go (x :: seen) xs

/-- First-occurrence deduplication. -/
def dedupFirst {α : Type} [DecidableEq α] (l : List α) : List α :=
  dedupFirst.go [] l

/-- Order in which pandas groupby emits groups: ascending by the
(starttime, endtime) key pair. -/
def keyLe (a b : Int × Int) : Prop := a.1 < b.1 ∨ (a.1 = b.1 ∧ a.2 ≤ b.2)

instance : DecidableRel keyLe := fun a b => by unfold keyLe; infer_instance

/-- Sorted emission order of the group keys. -/
def sortKeys (l : List (Int × Int)) : List (Int × Int) := List.insertionSort keyLe l

/-- Embedding of `group.drop(columns=['starttime', 'endtime'])`. -/
def dropTimeCols (r : Row) : Row :=
  r.filter (fun kv => decide (kv.1 ≠ "starttime") && decide (kv.1 ≠ "endtime"))

/-- One materialized result object: a rate grid for one time bucket with
the bucket's bounds attached. -/
structure ForecastGRRateGrid where
  starttime : Int
  endtime : Int
  rows : List Row
deriving DecidableEq, Repr

/-- The frame after the column transformations of `deserialize_rates`
(src/hermes_client/utils.py lines 22-29): rename realization_id to
grid_id, then default the mc, a and b columns when absent. -/
def preparedFrame (f : Frame) : Frame :=
  ensureCol "b" (ensureCol "a" (ensureCol "mc" (renameCol "realization_id" "grid_id" f)))

/-- Embedding of `deserialize_rates` (src/hermes_client/utils.py lines
8-41): accessing a missing starttime or endtime column raises KeyError
(the pd.to_datetime conversions, abstracted as order-preserving
identities, are the first column accesses); the realization_id column is
renamed to grid_id; the mc, a and b columns are defaulted to the missing
marker when absent; rows are grouped by the (starttime, endtime) pair
(rows with a missing key cell are dropped, as pandas groupby drops NaN
keys) and groups are emitted ascending by key, each as one
ForecastGRRateGrid holding the group's rows without the two time columns
plus the group's bounds. -/
def deserialize_rates (f : Frame) : Except PyErr (List ForecastGRRateGrid) :=
  if "starttime" ∈ f.header then
    if "endtime" ∈ f.header then
      .ok ((sortKeys (dedupFirst ((preparedFrame f).rows.filterMap rowKey))).map (fun k =>
        { starttime := k.1, endtime := k.2,
          rows := ((preparedFrame f).rows.filter
            (fun r => rowKey r == some k)).map dropTimeCols }))
    else .error (.keyError "endtime")
  else .error (.keyError "starttime")

theorem dedupFirst_go_mem {α : Type} [DecidableEq α] (l : List α) :
    ∀ (seen : List α) (a : α), a ∈ dedupFirst.go seen l ↔ a ∈ l ∧ a ∉ seen := by
  induction l with
  | nil => intro seen a; simp [dedupFirst.go]
  | cons x xs ih =>
    intro seen a
    by_cases hx : x ∈ seen
    · simp only [dedupFirst.go, if_pos hx, ih seen a, List.mem_cons]
      constructor
      · rintro ⟨h1, h2⟩; exact ⟨.inr h1, h2⟩
      · rintro ⟨rfl | h1, h2⟩
        · exact absurd hx h2
        · exact ⟨h1, h2⟩
    · simp only [dedupFirst.go, if_neg hx, List.mem_cons, ih (x :: seen) a, not_or]
      constructor
      · rintro (rfl | ⟨h1, hne, hns⟩)
        · exact ⟨Or.inl rfl, hx⟩
        · exact ⟨Or.inr h1, hns⟩
      · rintro ⟨rfl | h1, hns⟩
        · exact Or.inl rfl
        · by_cases hax : a = x
          · exact Or.inl hax
          · exact Or.inr ⟨h1, hax, hns⟩

theorem dedupFirst_mem {α : Type} [DecidableEq α] (l : List α) (a : α) :
    a ∈ dedupFirst l ↔ a ∈ l := by
  unfold dedupFirst
  rw [dedupFirst_go_mem]
  simp

theorem dedupFirst_go_nodup {α : Type} [DecidableEq α] (l : List α) :
    ∀ seen : List α, (dedupFirst.go seen l).Nodup := by
  induction l with
  | nil => intro seen; simp [dedupFirst.go]
  | cons x xs ih =>
    intro seen
    by_cases hx : x ∈ seen
    · simp only [dedupFirst.go, if_pos hx]
      exact ih seen
    · simp only [dedupFirst.go, if_neg hx]
      refine List.nodup_cons.mpr ⟨fun hmem => ?_, ih (x :: seen)⟩
      have := ((dedupFirst_go_mem xs (x :: seen) x).mp hmem).2
      exact this (List.mem_cons_self x seen)

theorem dedupFirst_nodup {α : Type} [DecidableEq α] (l : List α) : (dedupFirst l).Nodup :=
  dedupFirst_go_nodup l []

theorem map_key_mk (l : List (Int × Int)) (rowsOf : Int × Int → List Row) :
    ((l.map (fun k =>
        ({ starttime := k.1, endtime := k.2, rows := rowsOf k } : ForecastGRRateGrid))).map
      (fun g => (g.starttime, g.endtime))) = l := by
  induction l with
  | nil => rfl
  | cons x xs ih => simp [ih]

theorem sortKeys_mem (l : List (Int × Int)) (p : Int × Int) :
    p ∈ sortKeys l ↔ p ∈ l :=
  (List.perm_insertionSort keyLe l).mem_iff

theorem sortKeys_nodup (l : List (Int × Int)) (h : l.Nodup) : (sortKeys l).Nodup :=
  (List.perm_insertionSort keyLe l).nodup_iff.mpr h

theorem renameCol_row_keys (a b : String) (r : Row) :
    (r.map (fun kv => if kv.1 = a then (b, kv.2) else kv)).map Prod.fst =
      (r.map Prod.fst).map (fun c => if c = a then b else c) := by
  induction r with
  | nil => rfl
  | cons kv rest ih =>
    simp only [List.map_cons, ih]
    by_cases h : kv.1 = a <;> simp [h]

theorem renameCol_keys (a b : String) (f : Frame)
    (hwf : ∀ r ∈ f.rows, r.map Prod.fst = f.header) :
    ∀ r ∈ (renameCol a b f).rows, r.map Prod.fst = (renameCol a b f).header := by
  intro r hr
  simp only [renameCol, List.mem_map] at hr
  obtain ⟨r0, hr0, rfl⟩ := hr
  simp only [renameCol]
  rw [renameCol_row_keys, hwf r0 hr0]

theorem ensureCol_keys (c : String) (f : Frame)
    (hwf : ∀ r ∈ f.rows, r.map Prod.fst = f.header) :
    ∀ r ∈ (ensureCol c f).rows, r.map Prod.fst = (ensureCol c f).header := by
  unfold ensureCol
  by_cases h : c ∈ f.header
  · simpa [h] using hwf
  · simp only [h, if_false]
    intro r hr
    simp only [List.mem_map] at hr
    obtain ⟨r0, hr0, rfl⟩ := hr
    simp [hwf r0 hr0]

theorem preparedFrame_keys (f : Frame)
    (hwf : ∀ r ∈ f.rows, r.map Prod.fst = f.header) :
    ∀ r ∈ (preparedFrame f).rows, r.map Prod.fst = (preparedFrame f).header := by
  unfold preparedFrame
  exact ensureCol_keys _ _ (ensureCol_keys _ _ (ensureCol_keys _ _ (renameCol_keys _ _ _ hwf)))

theorem ensureCol_header_self (c : String) (f : Frame) : c ∈ (ensureCol c f).header := by
  unfold ensureCol
  by_cases h : c ∈ f.header <;> simp [h]

theorem ensureCol_header_mono (c x : String) (f : Frame) (hx : x ∈ f.header) :
    x ∈ (ensureCol c f).header := by
  unfold ensureCol
  by_cases h : c ∈ f.header <;> simp [h, hx]

theorem ensureCol_header_not_mem (c x : String) (f : Frame) (hx : x ∉ f.header)
    (hxc : x ≠ c) : x ∉ (ensureCol c f).header := by
  unfold ensureCol
  by_cases h : c ∈ f.header <;> simp [h, hx, hxc]

theorem renameCol_header_not_mem (a b : String) (f : Frame) (hab : b ≠ a) :
    a ∉ (renameCol a b f).header := by
  simp only [renameCol, List.mem_map, not_exists]
  rintro c ⟨hc, hceq⟩
  by_cases h : c = a
  · rw [if_pos h] at hceq; exact hab hceq
  · rw [if_neg h] at hceq; exact h hceq

theorem preparedHeader_props (f : Frame) :
    "mc" ∈ (preparedFrame f).header ∧ "a" ∈ (preparedFrame f).header ∧
    "b" ∈ (preparedFrame f).header ∧ "realization_id" ∉ (preparedFrame f).header := by
  unfold preparedFrame
  refine ⟨?_, ?_, ?_, ?_⟩
  · exact ensureCol_header_mono _ _ _ (ensureCol_header_mono _ _ _ (ensureCol_header_self _ _))
  · exact ensureCol_header_mono _ _ _ (ensureCol_header_self _ _)
  · exact ensureCol_header_self _ _
  · refine ensureCol_header_not_mem _ _ _ (ensureCol_header_not_mem _ _ _
      (ensureCol_header_not_mem _ _ _ (renameCol_header_not_mem _ _ _ (by decide))
        (by decide)) (by decide)) (by decide)

theorem mem_map_fst_dropTimeCols (r : Row) (c : String) (hc1 : c ≠ "starttime")
    (hc2 : c ≠ "endtime") : c ∈ (dropTimeCols r).map Prod.fst ↔ c ∈ r.map Prod.fst := by
  unfold dropTimeCols
  constructor
  · intro h
    obtain ⟨kv, hkv, rfl⟩ := List.mem_map.mp h
    exact List.mem_map.mpr ⟨kv, (List.mem_filter.mp hkv).1, rfl⟩
  · intro h
    obtain ⟨kv, hkv, rfl⟩ := List.mem_map.mp h
    refine List.mem_map.mpr ⟨kv, List.mem_filter.mpr ⟨hkv, ?_⟩, rfl⟩
    simp [hc1, hc2]

/-- C7: a payload missing the starttime or endtime column is a KeyError;
otherwise materialization returns one result object per distinct
(starttime, endtime) pair — the emitted key sequence is the
ascending-sorted deduplication of the row keys, is duplicate-free, and
covers exactly the pairs occurring in the rows — each object holding
exactly the rows of its bucket (time columns dropped) plus the bucket
bounds; and on well-formed rows every materialized row carries the mc, a
and b columns and no realization_id column (renamed to grid_id). -/
theorem claim_C7_deserialize_rates (f : Frame) :
    ("starttime" ∉ f.header → deserialize_rates f = .error (.keyError "starttime")) ∧
    ("starttime" ∈ f.header → "endtime" ∉ f.header →
      deserialize_rates f = .error (.keyError "endtime")) ∧
    ("starttime" ∈ f.header → "endtime" ∈ f.header →
      ∃ gs, deserialize_rates f = .ok gs ∧
        gs.map (fun g => (g.starttime, g.endtime)) =
          sortKeys (dedupFirst ((preparedFrame f).rows.filterMap rowKey)) ∧
        (gs.map (fun g => (g.starttime, g.endtime))).Nodup ∧
        (∀ p, p ∈ gs.map (fun g => (g.starttime, g.endtime)) ↔
          p ∈ (preparedFrame f).rows.filterMap rowKey) ∧
        (∀ g ∈ gs, g.rows = ((preparedFrame f).rows.filter
          (fun r => rowKey r == some (g.starttime, g.endtime))).map dropTimeCols)) ∧
    ((∀ r ∈ f.rows, r.map Prod.fst = f.header) →
      ∀ gs, deserialize_rates f = .ok gs → ∀ g ∈ gs, ∀ r ∈ g.rows,
        "mc" ∈ r.map Prod.fst ∧ "a" ∈ r.map Prod.fst ∧ "b" ∈ r.map Prod.fst ∧
        "realization_id" ∉ r.map Prod.fst) := by
  refine ⟨?_, ?_, ?_, ?_⟩
  · intro hs
    unfold deserialize_rates
    rw [if_neg hs]
  · intro hs he
    unfold deserialize_rates
    rw [if_pos hs, if_neg he]
  · intro hs he
    refine ⟨_, by unfold deserialize_rates; rw [if_pos hs, if_pos he], ?_, ?_, ?_, ?_⟩
    · exact map_key_mk _ _
    · rw [map_key_mk]
      exact sortKeys_nodup _ (dedupFirst_nodup _)
    · intro p
      rw [map_key_mk]
      exact (sortKeys_mem _ p).trans (dedupFirst_mem _ p)
    · intro g hg
      obtain ⟨k, _, rfl⟩ := List.mem_map.mp hg
      rfl
  · intro hwf gs hgs g hg r hr
    by_cases hs : "starttime" ∈ f.header
    · by_cases he : "endtime" ∈ f.header
      · unfold deserialize_rates at hgs
        rw [if_pos hs, if_pos he] at hgs
        injection hgs with hgs
        subst hgs
        obtain ⟨k, _, rfl⟩ := List.mem_map.mp hg
        obtain ⟨r0, hr0, rfl⟩ := List.mem_map.mp hr
        have hr0' : r0 ∈ (preparedFrame f).rows := List.mem_of_mem_filter hr0
        have hkeys := preparedFrame_keys f hwf r0 hr0'
        obtain ⟨hmc, ha, hb, hrid⟩ := preparedHeader_props f
        refine ⟨?_, ?_, ?_, ?_⟩
        · rw [mem_map_fst_dropTimeCols _ _ (by decide) (by decide), hkeys]; exact hmc
        · rw [mem_map_fst_dropTimeCols _ _ (by decide) (by decide), hkeys]; exact ha
        · rw [mem_map_fst_dropTimeCols _ _ (by decide) (by decide), hkeys]; exact hb
        · rw [mem_map_fst_dropTimeCols _ _ (by decide) (by decide), hkeys]; exact hrid
      · unfold deserialize_rates at hgs
        rw [if_pos hs, if_neg he] at hgs
        cases hgs
    · unfold deserialize_rates at hgs
      rw [if_neg hs] at hgs
      cases hgs

/-- Witness for C7: four rows over two distinct time buckets, with a
realization_id column and no mc/a/b columns, plus the two missing-column
error cases. -/
theorem claim_C7_deserialize_rates_witness :
    (∃ gs, deserialize_rates
        { header := ["starttime", "endtime", "realization_id", "rate"],
          rows := [
            [("starttime", some 0), ("endtime", some 10), ("realization_id", some 1),
             ("rate", some 7)],
            [("starttime", some 10), ("endtime", some 20), ("realization_id", some 1),
             ("rate", some 8)],
            [("starttime", some 0), ("endtime", some 10), ("realization_id", some 2),
             ("rate", some 9)],
            [("starttime", some 10), ("endtime", some 20), ("realization_id", some 2),
             ("rate", some 6)]] } = .ok gs ∧ gs.length = 2) ∧
    deserialize_rates { header := ["endtime"], rows := [] } =
      .error (.keyError "starttime") ∧
    deserialize_rates { header := ["starttime"], rows := [] } =
      .error (.keyError "endtime") := by
  refine ⟨?_, ?_, ?_⟩
  · obtain ⟨gs, hgs, hkeys, -, -, -⟩ :=
      (claim_C7_deserialize_rates
        { header := ["starttime", "endtime", "realization_id", "rate"],
          rows := [
            [("starttime", some 0), ("endtime", some 10), ("realization_id", some 1),
             ("rate", some 7)],
            [("starttime", some 10), ("endtime", some 20), ("realization_id", some 1),
             ("rate", some 8)],
            [("starttime", some 0), ("endtime", some 10), ("realization_id", some 2),
             ("rate", some 9)],
            [("starttime", some 10), ("endtime", some 20), ("realization_id", some 2),
             ("rate", some 6)]] }).2.2.1 (by decide) (by decide)
    refine ⟨gs, hgs, ?_⟩
    have hlen := congrArg List.length hkeys
    rw [List.length_map] at hlen
    rw [hlen]
    decide
  · exact (claim_C7_deserialize_rates { header := ["endtime"], rows := [] }).1 (by decide)
  · exact (claim_C7_deserialize_rates { header := ["starttime"], rows := [] }).2.1
      (by decide) (by decide)

/-- A store of the mutable Python objects owned by one client instance:
cell i holds the object behind address i; object contents are abstracted
to lists of integers. Mutating an object through a reference held by the
caller is an update of the cell behind its address. -/
structure Heap where
  cells : List (List Int)
deriving DecidableEq, Repr

/-- Allocate a fresh object; returns its address. -/
def Heap.alloc (h : Heap) (v : List Int) : Nat × Heap :=
  (h.cells.length, ⟨h.cells ++ [v]⟩)

/-- The content of the object behind an address. -/
def Heap.get (h : Heap) (a : Nat) : List Int := h.cells.getD a []

/-- Mutate the object behind an address. -/
def Heap.set (h : Heap) (a : Nat) (v : List Int) : Heap := ⟨h.cells.set a v⟩

/-- The lazy-cache state of a ForecastSeriesClient
(src/hermes_client/forecastseries.py lines 37-39): its object store and
the three cache attributes, each None or the address of the cached
object. -/
structure FSClientState where
  heap : Heap
  forecastsCache : Option Nat
  injectionplansCache : Option Nat
  modelconfigsCache : Option Nat
deriving DecidableEq, Repr

/-- A ForecastSeriesClient right after construction: empty object store,
all caches unfetched. -/
def FSClientState.fresh : FSClientState := ⟨⟨[]⟩, none, none, none⟩

/-- Mutation, by the caller, of the object behind an address of the
client's store. -/
def FSClientState.mutate (s : FSClientState) (a : Nat) (v : List Int) : FSClientState :=
  { s with heap := s.heap.set a v }

/-- Embedding of the `ForecastSeriesClient.forecasts` accessor
(src/hermes_client/forecastseries.py lines 147-156): on a cache miss the
list built from the fetched forecasts is stored and that same list object
is returned; on a hit the cached list object itself is returned, without
a copy. The fetch outcome is a parameter (transport abstracted); the
number of fetches issued by the access is returned. -/
def fsForecasts (fetch : Except PyErr (List Int)) (s : FSClientState) :
    Except PyErr Nat × FSClientState × Nat :=
  match s.forecastsCache with
  | some a => (.ok a, s, 0)
  | none =>
    match fetch with
    | .error e => (.error e, s, 1)
    | .ok v =>
      let (a, h) := s.heap.alloc v
      (.ok a, { s with heap := h, forecastsCache := some a }, 1)

/-- Embedding of the `ForecastSeriesClient.injectionplans` accessor
(src/hermes_client/forecastseries.py lines 102-111): on a miss the raw
listing is fetched and stored; every access returns a fresh list of
freshly validated InjectionPlanTemplate objects built from the cached raw
data (validation abstracted as preserving the content). -/
def fsInjectionplans (fetch : Except PyErr (List Int)) (s : FSClientState) :
    Except PyErr Nat × FSClientState × Nat :=
  match s.injectionplansCache with
  | some a =>
    let (r, h) := s.heap.alloc (s.heap.get a)
    (.ok r, { s with heap := h }, 0)
  | none =>
    match fetch with
    | .error e => (.error e, s, 1)
    | .ok v =>
      let (a, h1) := s.heap.alloc v
      let (r, h2) := h1.alloc (h1.get a)
      (.ok r, { s with heap := h2, injectionplansCache := some a }, 1)

/-- Embedding of the `ForecastSeriesClient.modelconfigs` accessor
(src/hermes_client/forecastseries.py lines 125-133), of the same shape as
the injectionplans accessor. -/
def fsModelconfigs (fetch : Except PyErr (List Int)) (s : FSClientState) :
    Except PyErr Nat × FSClientState × Nat :=
  match s.modelconfigsCache with
  | some a =>
    let (r, h) := s.heap.alloc (s.heap.get a)
    (.ok r, { s with heap := h }, 0)
  | none =>
    match fetch with
    | .error e => (.error e, s, 1)
    | .ok v =>
      let (a, h1) := s.heap.alloc v
      let (r, h2) := h1.alloc (h1.get a)
      (.ok r, { s with heap := h2, modelconfigsCache := some a }, 1)

/-- The lazy-cache state of a ForecastClient
(src/hermes_client/forecast.py lines 22-23). -/
structure ForecastClientState where
  heap : Heap
  seismicityCache : Option Nat
  injectionObsCache : Option Nat
deriving DecidableEq, Repr

/-- A ForecastClient right after construction. -/
def ForecastClientState.fresh : ForecastClientState := ⟨⟨[]⟩, none, none⟩

/-- Mutation, by the caller, of the object behind an address of the
client's store. -/
def ForecastClientState.mutate (s : ForecastClientState) (a : Nat) (v : List Int) :
    ForecastClientState :=
  { s with heap := s.heap.set a v }

/-- Embedding of the `ForecastClient.seismicityobservation` accessor
(src/hermes_client/forecast.py lines 119-129): on a miss the fetched
payload is parsed (parsing abstracted as preserving the content) and the
catalog stored; every access returns a copy of the cached catalog. -/
def fcSeismicityobservation (fetch : Except PyErr (List Int)) (s : ForecastClientState) :
    Except PyErr Nat × ForecastClientState × Nat :=
  match s.seismicityCache with
  | some a =>
    let (r, h) := s.heap.alloc (s.heap.get a)
    (.ok r, { s with heap := h }, 0)
  | none =>
    match fetch with
    | .error e => (.error e, s, 1)
    | .ok v =>
      let (a, h1) := s.heap.alloc v
      let (r, h2) := h1.alloc (h1.get a)
      (.ok r, { s with heap := h2, seismicityCache := some a }, 1)

/-- Embedding of the `ForecastClient.injectionobservations` accessor
(src/hermes_client/forecast.py lines 91-106): on a miss the hydraulics
object built from the single fetched observation is stored; the cached
object itself is returned, without a copy. -/
def fcInjectionobservations (fetch : Except PyErr (List Int)) (s : ForecastClientState) :
    Except PyErr Nat × ForecastClientState × Nat :=
  match s.injectionObsCache with
  | some a => (.ok a, s, 0)
  | none =>
    match fetch with
    | .error e => (.error e, s, 1)
    | .ok v =>
      let (a, h) := s.heap.alloc v
      (.ok a, { s with heap := h, injectionObsCache := some a }, 1)

/-- The lazy-cache state of a ModelRunClient without a forecast_client
back-reference (src/hermes_client/modelrun.py lines 47-50). -/
structure ModelRunClientState where
  heap : Heap
  injectionplanCache : Option Nat
  modelconfigCache : Option Nat
  resultsCache : Option Nat
deriving DecidableEq, Repr

/-- A ModelRunClient right after construction. -/
def ModelRunClientState.fresh : ModelRunClientState := ⟨⟨[]⟩, none, none, none⟩

/-- Mutation, by the caller, of the object behind an address of the
client's store. -/
def ModelRunClientState.mutate (s : ModelRunClientState) (a : Nat) (v : List Int) :
    ModelRunClientState :=
  { s with heap := s.heap.set a v }

/-- Embedding of the `ModelRunClient.injectionplan` accessor in its
standalone path, forecast_client being None
(src/hermes_client/modelrun.py lines 84-97): on a miss the hydraulics
object built from the fetched plan is stored; the cached object itself is
returned, without a copy. -/
def mrInjectionplan (fetch : Except PyErr (List Int)) (s : ModelRunClientState) :
    Except PyErr Nat × ModelRunClientState × Nat :=
  match s.injectionplanCache with
  | some a => (.ok a, s, 0)
  | none =>
    match fetch with
    | .error e => (.error e, s, 1)
    | .ok v =>
      let (a, h) := s.heap.alloc v
      (.ok a, { s with heap := h, injectionplanCache := some a }, 1)

/-- Embedding of the `ModelRunClient.modelconfig` accessor in its
standalone path, forecast_client being None
(src/hermes_client/modelrun.py lines 119-122): on a miss the fetched dict
is stored; every access returns a copy of the cached dict. The delegation
path taken when a forecast_client is present is `mrModelconfigDelegated`
below. -/
def mrModelconfig (fetch : Except PyErr (List Int)) (s : ModelRunClientState) :
    Except PyErr Nat × ModelRunClientState × Nat :=
  match s.modelconfigCache with
  | some a =>
    let (r, h) := s.heap.alloc (s.heap.get a)
    (.ok r, { s with heap := h }, 0)
  | none =>
    match fetch with
    | .error e => (.error e, s, 1)
    | .ok v =>
      let (a, h1) := s.heap.alloc v
      let (r, h2) := h1.alloc (h1.get a)
      (.ok r, { s with heap := h2, modelconfigCache := some a }, 1)

/-- The parent-side state read by the delegation branch of
`ModelRunClient.modelconfig`: the owning ForecastClient's object store and
its metadata record for the run's modelconfig name, holding the address of
the embedded modelconfig payload when that record already carries one
(the modelconfig key of the record), else none. Records for other names,
which the parent property also visits, are elided. -/
structure ParentModelconfigState where
  heap : Heap
  payloadCache : Option Nat
deriving DecidableEq, Repr

/-- Mutation, by the caller, of the object behind an address of the
parent's store. -/
def ParentModelconfigState.mutate (s : ParentModelconfigState) (a : Nat) (v : List Int) :
    ParentModelconfigState :=
  { s with heap := s.heap.set a v }

/-- Embedding of the delegation branch of `ModelRunClient.modelconfig`
(src/hermes_client/modelrun.py lines 115-117) — the default path, since
`ForecastClient.modelruns` passes the forecast as forecast_client
(src/hermes_client/forecast.py line 86) — backed by
`ForecastClient.modelconfigs` (src/hermes_client/forecast.py lines
165-175): when the parent's metadata record for the run's modelconfig
name lacks its payload, the payload is fetched once and stored into the
metadata record; the dict handed to the caller is the metadata-stored
object itself, because the copy at the end of the parent property copies
only the name-to-dict mapping, not its values. -/
def mrModelconfigDelegated (fetch : Except PyErr (List Int)) (s : ParentModelconfigState) :
    Except PyErr Nat × ParentModelconfigState × Nat :=
  match s.payloadCache with
  | some a => (.ok a, s, 0)
  | none =>
    match fetch with
    | .error e => (.error e, s, 1)
    | .ok v =>
      let (a, h) := s.heap.alloc v
      (.ok a, { s with heap := h, payloadCache := some a }, 1)

/-- The declared result type of a modelconfig. -/
inductive RType where
  | GRID
  | CATALOG
  | BINS
deriving DecidableEq, Repr

/-- Embedding of `ModelRunClient.get_results`
(src/hermes_client/modelrun.py lines 135-158). On a hit a copy of the
cached value is returned with no fetch. On a miss the raw payload is
fetched and assigned to self._results first; for GRID it is then replaced
by the deserialized grids (deserialization abstracted as the parameter
deser) and a copy returned; for CATALOG and BINS the NotImplementedError
is raised after the raw payload was already assigned, so the error leaves
the cache holding the raw payload. -/
def mrGetResults (rt : RType) (deser : List Int → List Int)
    (fetch : Except PyErr (List Int)) (s : ModelRunClientState) :
    Except PyErr Nat × ModelRunClientState × Nat :=
  match s.resultsCache with
  | some a =>
    let (r, h) := s.heap.alloc (s.heap.get a)
    (.ok r, { s with heap := h }, 0)
  | none =>
    match fetch with
    | .error e => (.error e, s, 1)
    | .ok raw =>
      let (a, h1) := s.heap.alloc raw
      let s1 : ModelRunClientState := { s with heap := h1, resultsCache := some a }
      match rt with
      | .GRID =>
        let (b, h2) := s1.heap.alloc (deser raw)
        let s2 : ModelRunClientState := { s1 with heap := h2, resultsCache := some b }
        let (r, h3) := s2.heap.alloc (s2.heap.get b)
        (.ok r, { s2 with heap := h3 }, 1)
      | .CATALOG =>
        (.error (.notImplementedError "Catalog results are not yet implemented."), s1, 1)
      | .BINS =>
        (.error (.notImplementedError "MagnitudeBins results are not yet implemented."), s1, 1)

/-- C1, counterexample: ForecastSeriesClient.forecasts returns the cached
list object itself, so mutating the returned object changes the internal
cache and the value returned by the second access: with fetched content
[5], the first access returns address 0 holding [5]; after the caller
mutates that object to [9], the second access (which performs no fetch)
returns the same address, now holding [9] instead of the fetched [5]. -/
theorem claim_C1_lazy_cache_counterexample :
    fsForecasts (.ok [5]) FSClientState.fresh =
      (.ok 0, ⟨⟨[[5]]⟩, some 0, none, none⟩, 1) ∧
    FSClientState.mutate ⟨⟨[[5]]⟩, some 0, none, none⟩ 0 [9] =
      ⟨⟨[[9]]⟩, some 0, none, none⟩ ∧
    fsForecasts (.ok [5]) ⟨⟨[[9]]⟩, some 0, none, none⟩ =
      (.ok 0, ⟨⟨[[9]]⟩, some 0, none, none⟩, 0) ∧
    Heap.get ⟨[[9]]⟩ 0 = [9] ∧ ([9] : List Int) ≠ [5] := by
  decide

/-- C1, amended: starting from a freshly constructed client, every
lazily-cached accessor issues at most one fetch per entity-instance
lifetime — exactly one on the first access (none at all on the delegation
path when the parent metadata already embeds the payload) and none on the
second, whatever the transport would then return — and the second access
returns a value equal to the cached one. The accessors returning copies
or freshly validated objects (ForecastSeriesClient.injectionplans and
modelconfigs, ForecastClient.seismicityobservation,
ModelRunClient.get_results, and ModelRunClient.modelconfig in its
standalone path) are mutation-safe: after the caller mutates the returned
object, a later access still returns the originally fetched value. The
accessors ForecastSeriesClient.forecasts,
ForecastClient.injectionobservations, ModelRunClient.injectionplan, and
ModelRunClient.modelconfig on its default delegation path instead return
the cached object itself — for the delegated modelconfig, the dict stored
in the parent's metadata — so they are not mutation-safe (see the
counterexample). -/
theorem claim_C1_lazy_cache_amended :
    (∀ (v : List Int) (fetch2 : Except PyErr (List Int)),
      fsForecasts (.ok v) FSClientState.fresh =
        (.ok 0, ⟨⟨[v]⟩, some 0, none, none⟩, 1) ∧
      Heap.get ⟨[v]⟩ 0 = v ∧
      fsForecasts fetch2 ⟨⟨[v]⟩, some 0, none, none⟩ =
        (.ok 0, ⟨⟨[v]⟩, some 0, none, none⟩, 0)) ∧
    (∀ (v w : List Int) (fetch2 : Except PyErr (List Int)),
      fsInjectionplans (.ok v) FSClientState.fresh =
        (.ok 1, ⟨⟨[v, v]⟩, none, some 0, none⟩, 1) ∧
      Heap.get ⟨[v, v]⟩ 1 = v ∧
      fsInjectionplans fetch2
          (FSClientState.mutate ⟨⟨[v, v]⟩, none, some 0, none⟩ 1 w) =
        (.ok 2, ⟨⟨[v, w, v]⟩, none, some 0, none⟩, 0) ∧
      Heap.get ⟨[v, w, v]⟩ 2 = v) ∧
    (∀ (v w : List Int) (fetch2 : Except PyErr (List Int)),
      fsModelconfigs (.ok v) FSClientState.fresh =
        (.ok 1, ⟨⟨[v, v]⟩, none, none, some 0⟩, 1) ∧
      Heap.get ⟨[v, v]⟩ 1 = v ∧
      fsModelconfigs fetch2
          (FSClientState.mutate ⟨⟨[v, v]⟩, none, none, some 0⟩ 1 w) =
        (.ok 2, ⟨⟨[v, w, v]⟩, none, none, some 0⟩, 0) ∧
      Heap.get ⟨[v, w, v]⟩ 2 = v) ∧
    (∀ (v w : List Int) (fetch2 : Except PyErr (List Int)),
      fcSeismicityobservation (.ok v) ForecastClientState.fresh =
        (.ok 1, ⟨⟨[v, v]⟩, some 0, none⟩, 1) ∧
      Heap.get ⟨[v, v]⟩ 1 = v ∧
      fcSeismicityobservation fetch2
          (ForecastClientState.mutate ⟨⟨[v, v]⟩, some 0, none⟩ 1 w) =
        (.ok 2, ⟨⟨[v, w, v]⟩, some 0, none⟩, 0) ∧
      Heap.get ⟨[v, w, v]⟩ 2 = v) ∧
    (∀ (v : List Int) (fetch2 : Except PyErr (List Int)),
      fcInjectionobservations (.ok v) ForecastClientState.fresh =
        (.ok 0, ⟨⟨[v]⟩, none, some 0⟩, 1) ∧
      Heap.get ⟨[v]⟩ 0 = v ∧
      fcInjectionobservations fetch2 ⟨⟨[v]⟩, none, some 0⟩ =
        (.ok 0, ⟨⟨[v]⟩, none, some 0⟩, 0)) ∧
    (∀ (v : List Int) (fetch2 : Except PyErr (List Int)),
      mrInjectionplan (.ok v) ModelRunClientState.fresh =
        (.ok 0, ⟨⟨[v]⟩, some 0, none, none⟩, 1) ∧
      Heap.get ⟨[v]⟩ 0 = v ∧
      mrInjectionplan fetch2 ⟨⟨[v]⟩, some 0, none, none⟩ =
        (.ok 0, ⟨⟨[v]⟩, some 0, none, none⟩, 0)) ∧
    (∀ (v w : List Int) (fetch2 : Except PyErr (List Int)),
      mrModelconfig (.ok v) ModelRunClientState.fresh =
        (.ok 1, ⟨⟨[v, v]⟩, none, some 0, none⟩, 1) ∧
      Heap.get ⟨[v, v]⟩ 1 = v ∧
      mrModelconfig fetch2
          (ModelRunClientState.mutate ⟨⟨[v, v]⟩, none, some 0, none⟩ 1 w) =
        (.ok 2, ⟨⟨[v, w, v]⟩, none, some 0, none⟩, 0) ∧
      Heap.get ⟨[v, w, v]⟩ 2 = v) ∧
    (∀ (deser : List Int → List Int) (v w : List Int)
        (fetch2 : Except PyErr (List Int)),
      mrGetResults .GRID deser (.ok v) ModelRunClientState.fresh =
        (.ok 2, ⟨⟨[v, deser v, deser v]⟩, none, none, some 1⟩, 1) ∧
      Heap.get ⟨[v, deser v, deser v]⟩ 2 = deser v ∧
      mrGetResults .GRID deser fetch2
          (ModelRunClientState.mutate ⟨⟨[v, deser v, deser v]⟩, none, none, some 1⟩ 2 w) =
        (.ok 3, ⟨⟨[v, deser v, w, deser v]⟩, none, none, some 1⟩, 0) ∧
      Heap.get ⟨[v, deser v, w, deser v]⟩ 3 = deser v) ∧
    (∀ (v w : List Int) (fetch2 : Except PyErr (List Int)),
      mrModelconfigDelegated (.ok v) ⟨⟨[]⟩, none⟩ = (.ok 0, ⟨⟨[v]⟩, some 0⟩, 1) ∧
      Heap.get ⟨[v]⟩ 0 = v ∧
      mrModelconfigDelegated fetch2 ⟨⟨[v]⟩, some 0⟩ = (.ok 0, ⟨⟨[v]⟩, some 0⟩, 0) ∧
      mrModelconfigDelegated fetch2
          (ParentModelconfigState.mutate ⟨⟨[v]⟩, some 0⟩ 0 w) =
        (.ok 0, ⟨⟨[w]⟩, some 0⟩, 0) ∧
      Heap.get ⟨[w]⟩ 0 = w) := by
  refine ⟨fun v fetch2 => ⟨rfl, rfl, rfl⟩,
    fun v w fetch2 => ⟨rfl, rfl, rfl, rfl⟩,
    fun v w fetch2 => ⟨rfl, rfl, rfl, rfl⟩,
    fun v w fetch2 => ⟨rfl, rfl, rfl, rfl⟩,
    fun v fetch2 => ⟨rfl, rfl, rfl⟩,
    fun v fetch2 => ⟨rfl, rfl, rfl⟩,
    fun v w fetch2 => ⟨rfl, rfl, rfl, rfl⟩,
    fun deser v w fetch2 => ⟨rfl, rfl, rfl, rfl⟩,
    fun v w fetch2 => ⟨rfl, rfl, rfl, rfl, rfl⟩⟩

/-- C2: on a ModelRun whose modelconfig result_type is CATALOG, the first
get_results call fetches the raw payload, stores it in self._results and
only then raises the NotImplementedError, so the error does not leave the
cache in its unfetched state; the second call performs no fetch and
raises nothing, returning a copy of the cached raw undeserialized payload
(here [7]) instead of retrying and re-raising. A failure of the fetch
itself does leave the state unchanged, as the claim describes. -/
theorem claim_C2_error_caching_bug :
    mrGetResults .CATALOG (fun v => 0 :: v) (.ok [7]) ModelRunClientState.fresh =
      (.error (.notImplementedError "Catalog results are not yet implemented."),
        ⟨⟨[[7]]⟩, none, none, some 0⟩, 1) ∧
    (∀ fetch2, mrGetResults .CATALOG (fun v => 0 :: v) fetch2
        ⟨⟨[[7]]⟩, none, none, some 0⟩ =
      (.ok 1, ⟨⟨[[7], [7]]⟩, none, none, some 0⟩, 0)) ∧
    (∀ (rt : RType) (deser : List Int → List Int) (e : PyErr),
      mrGetResults rt deser (.error e) ModelRunClientState.fresh =
        (.error e, ModelRunClientState.fresh, 1)) :=
  ⟨by decide, fun fetch2 => rfl, fun rt deser e => rfl⟩

end HermesClient
